import Mathlib

/-!
Shallow embedding of the pantry-app backend core: the item lifecycle
engine (create-with-merge, quantity adjustment, open/split, deletion)
and the storage-area manager (create, update, cascade delete, reorder),
translated from `src/backend/src/db.ts` and the Express route handlers
for `/api/items` and `/api/storage-areas`.

Modelling conventions:
* The SQLite database is a `Store`: a list of item rows and a list of
  area rows, in insertion order.  `SELECT ... WHERE id = ? LIMIT`-style
  point lookups become `List.find?`; `UPDATE ... WHERE id` becomes a
  `List.map` touching matching rows; `DELETE` becomes `List.filter`.
* A nullable SQL text column is `Option String`; `none` is SQL NULL and
  `some ""` is a stored empty string (the two are distinct, exactly as
  in SQLite).  JavaScript `x || null` on an optional string is `orNull`.
* Timestamps are integer milliseconds (`Date.now()`), passed in as a
  `now` parameter.  The process timezone is taken to be UTC (the
  deployment default), so `today.setHours(0,0,0,0)` is flooring `now`
  to a multiple of `msPerDay`, and `new Date("YYYY-MM-DD")` parses the
  canonical ISO date at UTC midnight.  Non-canonical date strings are
  modelled as unparseable (JavaScript would produce an Invalid Date,
  whose NaN arithmetic makes every comparison false).
* `generateId()` (wall-clock + randomness) becomes an explicit `newId`
  argument; freshness is a hypothesis where a claim needs it.
-/

namespace Pantry

/-! ## Calendar dates

`new Date(isoString).getTime()`, and `new Date(ms).toISOString().split('T')[0]`,
for canonical `YYYY-MM-DD` strings, via the standard civil-from-days /
days-from-civil conversions (days counted from the Unix epoch). -/

def msPerDay : Int := 86400000

def isLeap (y : Int) : Bool :=
  y % 4 == 0 && (y % 100 != 0 || y % 400 == 0)

def daysInMonth (y m : Int) : Int :=
  if m == 2 then (if isLeap y then 29 else 28)
  else if m == 4 || m == 6 || m == 9 || m == 11 then 30
  else 31

def digitVal (c : Char) : Int :=
  (c.toNat : Int) - 48

/-- Parse a canonical `YYYY-MM-DD` string to (year, month, day); `none`
when the string is not a calendar date (JavaScript: Invalid Date). -/
def parseDate (s : String) : Option (Int × Int × Int) :=
  match s.toList with
  | [y1, y2, y3, y4, h1, mo1, mo2, h2, d1, d2] =>
    if y1.isDigit && y2.isDigit && y3.isDigit && y4.isDigit &&
       mo1.isDigit && mo2.isDigit && d1.isDigit && d2.isDigit &&
       h1 == '-' && h2 == '-' then
      let y := 1000 * digitVal y1 + 100 * digitVal y2 + 10 * digitVal y3 + digitVal y4
      let m := 10 * digitVal mo1 + digitVal mo2
      let d := 10 * digitVal d1 + digitVal d2
      if 1 ≤ m && m ≤ 12 && 1 ≤ d && d ≤ daysInMonth y m then
        some (y, m, d)
      else none
    else none
  | _ => none

/-- Days since the Unix epoch of a civil date (Gregorian). -/
def daysFromCivil (y m d : Int) : Int :=
  let y' := if m ≤ 2 then y - 1 else y
  let era := Int.fdiv y' 400
  let yoe := y' - era * 400
  let mp := if 2 < m then m - 3 else m + 9
  let doy := Int.fdiv (153 * mp + 2) 5 + d - 1
  let doe := yoe * 365 + Int.fdiv yoe 4 - Int.fdiv yoe 100 + doy
  era * 146097 + doe - 719468

/-- Civil date of a day count since the Unix epoch. -/
def civilFromDays (z0 : Int) : Int × Int × Int :=
  let z := z0 + 719468
  let era := Int.fdiv z 146097
  let doe := z - era * 146097
  let yoe := Int.fdiv (doe - Int.fdiv doe 1460 + Int.fdiv doe 36524 - Int.fdiv doe 146096) 365
  let y := yoe + era * 400
  let doy := doe - (365 * yoe + Int.fdiv yoe 4 - Int.fdiv yoe 100)
  let mp := Int.fdiv (5 * doy + 2) 153
  let d := doy - Int.fdiv (153 * mp + 2) 5 + 1
  let m := if mp < 10 then mp + 3 else mp - 9
  (if m ≤ 2 then y + 1 else y, m, d)

/-- Milliseconds since the epoch of a canonical date string (UTC midnight). -/
def parseDateMs (s : String) : Option Int :=
  (parseDate s).map (fun t => daysFromCivil t.1 t.2.1 t.2.2 * msPerDay)

def pad2 (n : Int) : String :=
  if n < 10 then "0" ++ toString n else toString n

def pad4 (n : Int) : String :=
  if n < 10 then "000" ++ toString n
  else if n < 100 then "00" ++ toString n
  else if n < 1000 then "0" ++ toString n
  else toString n

/-- `new Date(t).toISOString().split('T')[0]`: the date part of a
millisecond timestamp. -/
def formatDateMs (t : Int) : String :=
  let c := civilFromDays (Int.fdiv t msPerDay)
  pad4 c.1 ++ "-" ++ pad2 c.2.1 ++ "-" ++ pad2 c.2.2

/-- Ceiling of `a / b` for positive `b` (JavaScript `Math.ceil(a / b)`). -/
def ceilDiv (a b : Int) : Int :=
  Int.fdiv (a + b - 1) b

/-- ASCII-only lowercasing of a string, character by character.  This is
SQLite's default `LOWER` (ASCII folding only); `Char.toLower` lowercases
exactly the ASCII range. -/
def strLower (s : String) : String :=
  String.mk (s.toList.map Char.toLower)

/-- JavaScript `String.prototype.trim`: strip leading and trailing
whitespace. -/
def strTrim (s : String) : String :=
  String.mk (((s.toList.dropWhile Char.isWhitespace).reverse.dropWhile Char.isWhitespace).reverse)

/-! ## Data model (`types.ts`, table shapes in `db.ts`) -/

structure Item where
  id : String
  name : String
  quantity : Int
  storageAreaId : String
  createdAt : Int
  isOpened : Bool
  openedAt : Option Int
  expiryDate : Option String
deriving Repr, DecidableEq

structure Area where
  id : String
  name : String
  icon : String
  color : String
  order : Int
deriving Repr, DecidableEq

structure Store where
  items : List Item
  areas : List Area
deriving Repr, DecidableEq

/-! ## Row-level queries (`db.ts`) -/

/-- `itemQueries.getById`. -/
def getById (s : Store) (id : String) : Option Item :=
  s.items.find? (fun it => it.id == id)

/-- The WHERE clause of `itemQueries.findMergeable`: same area,
case-insensitive name match (SQLite `LOWER` folds ASCII), unopened, and
expiry equal (SQL `=` with a both-NULL disjunct, which is exactly
equality of `Option String`). -/
def matchesKey (areaId nm : String) (expiry : Option String) (it : Item) : Bool :=
  it.storageAreaId == areaId && strLower it.name == strLower nm &&
  it.isOpened == false && it.expiryDate == expiry

/-- `itemQueries.findMergeable`. -/
def findMergeable (s : Store) (areaId nm : String) (expiry : Option String) : Option Item :=
  s.items.find? (matchesKey areaId nm expiry)

/-- `itemQueries.updateQuantity`. -/
def updateQuantityRow (s : Store) (id : String) (q : Int) : Store :=
  { s with items := s.items.map (fun it => if it.id = id then { it with quantity := q } else it) }

/-- `itemQueries.update`: sets name, quantity, isOpened, openedAt and
expiryDate of the matching row; createdAt and storageAreaId are not in
the UPDATE's SET list and stay. -/
def updateItemRow (s : Store) (id nm : String) (q : Int) (isOp : Bool)
    (openedAt : Option Int) (expiry : Option String) : Store :=
  { s with items := s.items.map (fun it =>
      if it.id = id then
        { it with name := nm, quantity := q, isOpened := isOp,
                  openedAt := openedAt, expiryDate := expiry }
      else it) }

/-- `itemQueries.delete`. -/
def deleteItemRow (s : Store) (id : String) : Store :=
  { s with items := s.items.filter (fun it => it.id != id) }

/-- `itemQueries.deleteByStorageArea`. -/
def deleteItemsByArea (s : Store) (areaId : String) : Store :=
  { s with items := s.items.filter (fun it => it.storageAreaId != areaId) }

/-- JavaScript `x || null` on an optional string: the empty string is
falsy and collapses to null. -/
def orNull : Option String → Option String
  | some "" => none
  | e => e

/-! ## Item routes (`routes/items.ts`, `src/unnamed/part_003`) -/

inductive CreateResp where
  | badRequest
  | merged (item : Item)
  | created (item : Item)
  | serverError
deriving Repr, DecidableEq

/-- POST `/api/items`: validation, then merge-or-create. -/
def createOrMergeItem (s : Store) (now : Int) (newId : String)
    (nm : String) (quantity : Int) (storageAreaId : String)
    (expiryDate : Option String) : Store × CreateResp :=
  let trimmedName := strTrim nm
  if trimmedName = "" then (s, .badRequest)
  else if quantity < 1 then (s, .badRequest)
  else if storageAreaId = "" then (s, .badRequest)
  else
    match findMergeable s storageAreaId trimmedName (orNull expiryDate) with
    | some existing =>
      let s' := updateQuantityRow s existing.id (existing.quantity + quantity)
      match getById s' existing.id with
      | some updated => (s', .merged updated)
      | none => (s', .serverError)
    | none =>
      let newItem : Item :=
        { id := newId, name := trimmedName, quantity := quantity,
          storageAreaId := storageAreaId, createdAt := now,
          isOpened := false, openedAt := none, expiryDate := expiryDate }
      ({ s with items := s.items ++ [newItem] }, .created newItem)

inductive AdjustResp where
  | notFound
  | deleted
  | updated (item : Item)
  | serverError
deriving Repr, DecidableEq

/-- PUT `/api/items/:id/quantity`. -/
def adjustQuantity (s : Store) (id : String) (quantity : Int) : Store × AdjustResp :=
  match getById s id with
  | none => (s, .notFound)
  | some _ =>
    if quantity < 1 then (deleteItemRow s id, .deleted)
    else
      let s' := updateQuantityRow s id quantity
      match getById s' id with
      | some u => (s', .updated u)
      | none => (s', .serverError)

/-- Expiry recompute on open: nothing when the expiry is absent, empty
(falsy) or unparseable; otherwise halve the days left, minimum one day,
only when more than one day is left. -/
def recomputeExpiry (now : Int) : Option String → Option String
  | none => none
  | some s =>
    if s = "" then some s
    else
      match parseDateMs s with
      | none => some s
      | some expMs =>
        let todayMid := Int.fdiv now msPerDay * msPerDay
        let daysLeft := ceilDiv (expMs - todayMid) msPerDay
        if 1 < daysLeft then
          some (formatDateMs (todayMid + max 1 (Int.fdiv daysLeft 2) * msPerDay))
        else some s

inductive OpenResp where
  | notFound
  | opened (items : List Item)
  | serverError
deriving Repr, DecidableEq

/-- PUT `/api/items/:id/open`: full open mutates in place (the update
statement binds `newExpiryDate || null`); a lesser quantity splits off a
new opened row that inherits name, area and createdAt. -/
def openItem (s : Store) (now : Int) (newId : String) (id : String)
    (quantityToOpen : Int) : Store × OpenResp :=
  match getById s id with
  | none => (s, .notFound)
  | some item =>
    let newExpiryDate := recomputeExpiry now item.expiryDate
    if item.quantity ≤ quantityToOpen then
      let s' := updateItemRow s id item.name item.quantity true (some now) (orNull newExpiryDate)
      match getById s' id with
      | some updated => (s', .opened [updated])
      | none => (s', .serverError)
    else
      let s' := updateQuantityRow s id (item.quantity - quantityToOpen)
      let openedItem : Item :=
        { id := newId, name := item.name, quantity := quantityToOpen,
          storageAreaId := item.storageAreaId, createdAt := item.createdAt,
          isOpened := true, openedAt := some now, expiryDate := newExpiryDate }
      let s'' := { s' with items := s'.items ++ [openedItem] }
      match getById s'' id with
      | some updatedOriginal => (s'', .opened [updatedOriginal, openedItem])
      | none => (s'', .serverError)

inductive DeleteResp where
  | notFound
  | noContent
deriving Repr, DecidableEq

/-- DELETE `/api/items/:id`. -/
def deleteItem (s : Store) (id : String) : Store × DeleteResp :=
  match getById s id with
  | none => (s, .notFound)
  | some _ => (deleteItemRow s id, .noContent)

/-! ## Storage-area manager (`routes/storageAreas.ts`, `db.ts`) -/

/-- Ordering of area rows by their `order` column, as in
`storageAreaQueries.getAll`'s `ORDER BY "order" ASC`. -/
def byOrder (a b : Area) : Prop := a.order ≤ b.order

instance : DecidableRel byOrder := fun a b => inferInstanceAs (Decidable (a.order ≤ b.order))

instance : IsTotal Area byOrder := ⟨fun a b => Int.le_total a.order b.order⟩

instance : IsTrans Area byOrder := ⟨fun _ _ _ h1 h2 => le_trans h1 h2⟩

/-- `storageAreaQueries.getAll`: all areas sorted by `order`. -/
def sortAreas (l : List Area) : List Area := l.insertionSort byOrder

/-- The loop body of `reorderAreas` in `db.ts`: walk the id sequence,
setting `order := index` on the row with each id in turn. -/
def reorderFrom : List Area → List String → Nat → List Area
  | areas, [], _ => areas
  | areas, id :: rest, k =>
    reorderFrom (areas.map (fun a => if a.id = id then { a with order := (k : Int) } else a)) rest (k + 1)

/-- `reorderAreas(ids)` from `db.ts`. -/
def reorderAreas (areas : List Area) (ids : List String) : List Area :=
  reorderFrom areas ids 0

inductive CreateAreaResp where
  | badRequest
  | created (area : Area)
deriving Repr, DecidableEq

/-- POST `/api/storage-areas`: `order := (maxOrder ?? -1) + 1`. -/
def createArea (s : Store) (newId nm icon color : String) : Store × CreateAreaResp :=
  if strTrim nm = "" then (s, .badRequest)
  else
    let maxOrder := (s.areas.map (fun a => a.order)).max?
    let ord := (match maxOrder with | none => -1 | some m => m) + 1
    let a : Area := { id := newId, name := strTrim nm, icon := icon, color := color, order := ord }
    ({ s with areas := s.areas ++ [a] }, .created a)

inductive UpdateAreaResp where
  | notFound
  | updated (area : Area)
deriving Repr, DecidableEq

/-- PUT `/api/storage-areas/:id`: `name?.trim() || existing.name`,
`icon || existing.icon`, `color || existing.color`, `order ?? existing.order`. -/
def updateArea (s : Store) (id : String) (nm icon color : Option String)
    (ord : Option Int) : Store × UpdateAreaResp :=
  match s.areas.find? (fun a => a.id == id) with
  | none => (s, .notFound)
  | some existing =>
    let newName := match nm with
      | some n => if strTrim n = "" then existing.name else strTrim n
      | none => existing.name
    let newIcon := match icon with
      | some i => if i = "" then existing.icon else i
      | none => existing.icon
    let newColor := match color with
      | some c => if c = "" then existing.color else c
      | none => existing.color
    let newOrder := match ord with
      | some o => o
      | none => existing.order
    let updated : Area := { id := id, name := newName, icon := newIcon,
                            color := newColor, order := newOrder }
    ({ s with areas := s.areas.map (fun a => if a.id = id then updated else a) },
     .updated updated)

/-- DELETE `/api/storage-areas/:id`: delete the area's items, delete the
area, then re-pack the survivors' order by reordering them in their
current sorted-by-order sequence. -/
def deleteArea (s : Store) (id : String) : Store × DeleteResp :=
  match s.areas.find? (fun a => a.id == id) with
  | none => (s, .notFound)
  | some _ =>
    let items' := s.items.filter (fun it => it.storageAreaId != id)
    let areas' := s.areas.filter (fun a => a.id != id)
    let ids := (sortAreas areas').map (fun a => a.id)
    let areas'' := if ids.isEmpty then areas' else reorderAreas areas' ids
    ({ items := items', areas := areas'' }, .noContent)

/-- PUT `/api/storage-areas/reorder/batch`. -/
def reorderBatch (s : Store) (ids : List String) : Store × List Area :=
  let s' := { s with areas := reorderAreas s.areas ids }
  (s', sortAreas s'.areas)

/-- The three default areas seeded by `db.ts` (`DEFAULT_STORAGE_AREAS`). -/
def defaultAreas : List Area :=
  [ { id := "fridge", name := "Fridge", icon := "refrigerator", color := "cyan", order := 0 },
    { id := "freezer", name := "Freezer", icon := "snowflake", color := "blue", order := 1 },
    { id := "pantry", name := "Pantry", icon := "warehouse", color := "amber", order := 2 } ]

/-- Startup seeding in `db.ts`: insert the defaults when the area table
is empty. -/
def seedIfEmpty (s : Store) : Store :=
  if s.areas.isEmpty then { s with areas := defaultAreas } else s

/-! ## Derived notions used by the statements -/

/-- The ids of all item rows. -/
def itemIds (s : Store) : List String := s.items.map (fun it => it.id)

/-- The multiset of `order` values of a list of area rows. -/
def ordersOf (l : List Area) : List Int := l.map (fun a => a.order)

/-- The `order` values are exactly a permutation of `0..count-1`. -/
def IsOrderPerm (l : List Area) : Prop :=
  (ordersOf l).Perm ((List.range l.length).map Int.ofNat)

instance (l : List Area) : Decidable (IsOrderPerm l) :=
  inferInstanceAs (Decidable ((ordersOf l).Perm _))

/-! ## Test fixture -/

def itemA : Item :=
  { id := "a", name := "Milk", quantity := 5, storageAreaId := "fridge",
    createdAt := 100, isOpened := false, openedAt := none,
    expiryDate := some "2024-06-11" }

def storeA : Store := { items := [itemA], areas := defaultAreas }

def itemB : Item :=
  { id := "b", name := "Eggs", quantity := 5, storageAreaId := "fridge",
    createdAt := 100, isOpened := false, openedAt := none, expiryDate := none }

def storeB : Store := { items := [itemB], areas := defaultAreas }

/-! ## Helper lemmas -/

theorem orNull_eq_self {e : Option String} (h : e ≠ some "") : orNull e = e := by
  unfold orNull
  split
  · exact absurd rfl h
  · rfl

theorem find?_map_id (f : Item → Item) (hf : ∀ x, (f x).id = x.id)
    (l : List Item) (i : String) :
    (l.map f).find? (fun it => it.id == i) = (l.find? (fun it => it.id == i)).map f := by
  induction l with
  | nil => rfl
  | cons x xs ih =>
    simp only [List.map_cons, List.find?_cons, hf x]
    cases hx : (x.id == i) <;> simp [hx, ih]

theorem getById_updateQuantityRow (s : Store) (id id' : String) (q : Int) :
    getById (updateQuantityRow s id q) id' =
      (getById s id').map (fun it => if it.id = id then { it with quantity := q } else it) := by
  unfold getById updateQuantityRow
  exact find?_map_id _ (fun x => by split <;> rfl) _ _

theorem getById_updateItemRow (s : Store) (id id' nm : String) (q : Int) (isOp : Bool)
    (openedAt : Option Int) (expiry : Option String) :
    getById (updateItemRow s id nm q isOp openedAt expiry) id' =
      (getById s id').map (fun it =>
        if it.id = id then
          { it with name := nm, quantity := q, isOpened := isOp,
                    openedAt := openedAt, expiryDate := expiry }
        else it) := by
  unfold getById updateItemRow
  exact find?_map_id _ (fun x => by split <;> rfl) _ _

theorem getById_deleteItemRow (s : Store) (id : String) :
    getById (deleteItemRow s id) id = none := by
  unfold getById deleteItemRow
  refine List.find?_eq_none.mpr (fun x hx => ?_)
  have hfx := List.of_mem_filter hx
  simp only [bne_iff_ne, ne_eq] at hfx
  simpa using hfx

theorem id_of_getById {s : Store} {id : String} {i : Item}
    (h : getById s id = some i) : i.id = id := by
  have := List.find?_some h
  simpa using this

theorem mem_of_getById {s : Store} {id : String} {i : Item}
    (h : getById s id = some i) : i ∈ s.items :=
  List.mem_of_find?_eq_some h

theorem itemIds_map_id_pres (s : List Item) (f : Item → Item)
    (hf : ∀ x, (f x).id = x.id) :
    (s.map f).map (fun it => it.id) = s.map (fun it => it.id) := by
  rw [List.map_map]
  exact List.map_congr_left (fun x _ => hf x)

/-! ## Claim theorems -/

/-- C6: adjustQuantity (PUT `/api/items/:id/quantity`): an unknown id is
NotFound with the store unchanged; `newQuantity < 1` deletes the record,
returns a deleted signal and no record, and a subsequent lookup of the id
is NotFound; otherwise the quantity is overwritten to exactly the new
value (absolute set) and the updated record, all other fields unchanged,
is returned. -/
theorem C6_adjustQuantity (s : Store) (id : String) (q : Int) :
    (getById s id = none → adjustQuantity s id q = (s, AdjustResp.notFound)) ∧
    (∀ i, getById s id = some i →
      (q < 1 →
        adjustQuantity s id q = (deleteItemRow s id, AdjustResp.deleted) ∧
        getById (adjustQuantity s id q).1 id = none) ∧
      (1 ≤ q →
        adjustQuantity s id q =
          ({ items := s.items.map (fun it => if it.id = id then { it with quantity := q } else it),
             areas := s.areas },
           AdjustResp.updated { i with quantity := q }))) := by
  constructor
  · intro h
    simp [adjustQuantity, h]
  · intro i hi
    constructor
    · intro hq
      have heq : adjustQuantity s id q = (deleteItemRow s id, AdjustResp.deleted) := by
        simp [adjustQuantity, hi, if_pos hq]
      exact ⟨heq, by rw [heq]; exact getById_deleteItemRow s id⟩
    · intro hq
      have hq' : ¬ (q < 1) := by omega
      have hid : i.id = id := id_of_getById hi
      have h2 : getById (updateQuantityRow s id q) id = some { i with quantity := q } := by
        rw [getById_updateQuantityRow, hi]
        simp [hid]
      simp only [adjustQuantity, hi]
      rw [if_neg hq']
      simp only [h2]
      simp [updateQuantityRow]

/-- Witness for C6 on a concrete store: setting quantity 0 deletes the
record and the id then resolves to nothing. -/
theorem C6_witness :
    adjustQuantity storeA "a" 0 = (deleteItemRow storeA "a", AdjustResp.deleted) ∧
    getById (adjustQuantity storeA "a" 0).1 "a" = none :=
  ((C6_adjustQuantity storeA "a" 0).2 itemA (by decide)).1 (by decide)

theorem getById_append (s : Store) (l : List Item) (id : String) :
    getById { s with items := s.items ++ l } id =
      (getById s id).or (l.find? (fun it => it.id == id)) := by
  unfold getById
  exact List.find?_append

/-- The split branch of openItem, as one equation: whenever the looked-up
row's quantity exceeds quantityToOpen (no other condition is checked),
the row's quantity drops by quantityToOpen and a new opened row is
appended. -/
theorem openItem_split_eq (s : Store) (now : Int) (newId id : String) (i : Item) (qto : Int)
    (hi : getById s id = some i) (hbr : qto < i.quantity) :
    openItem s now newId id qto =
      ({ items :=
           s.items.map (fun it => if it.id = id then { it with quantity := i.quantity - qto } else it)
           ++ [{ id := newId, name := i.name, quantity := qto,
                 storageAreaId := i.storageAreaId, createdAt := i.createdAt,
                 isOpened := true, openedAt := some now,
                 expiryDate := recomputeExpiry now i.expiryDate }],
         areas := s.areas },
       OpenResp.opened
         [{ i with quantity := i.quantity - qto },
          { id := newId, name := i.name, quantity := qto,
            storageAreaId := i.storageAreaId, createdAt := i.createdAt,
            isOpened := true, openedAt := some now,
            expiryDate := recomputeExpiry now i.expiryDate }]) := by
  have hid : i.id = id := id_of_getById hi
  have hbr' : ¬ (i.quantity ≤ qto) := by omega
  simp only [openItem, hi]
  rw [if_neg hbr']
  have h1 : getById (updateQuantityRow s id (i.quantity - qto)) id =
      some { i with quantity := i.quantity - qto } := by
    rw [getById_updateQuantityRow, hi]
    simp [hid]
  have h2 : getById
      { updateQuantityRow s id (i.quantity - qto) with
        items := (updateQuantityRow s id (i.quantity - qto)).items ++
          [{ id := newId, name := i.name, quantity := qto,
             storageAreaId := i.storageAreaId, createdAt := i.createdAt,
             isOpened := true, openedAt := some now,
             expiryDate := recomputeExpiry now i.expiryDate }] } id =
      some { i with quantity := i.quantity - qto } := by
    rw [getById_append, h1]
    rfl
  simp only [h2]
  simp [updateQuantityRow]

/-- C3: openItem with `1 ≤ quantityToOpen < quantity` splits: the
original row keeps its id, stays unopened with its own expiryDate and
quantity `Q - quantityToOpen`; a new row with a fresh id inherits name,
storageAreaId and createdAt, has quantity `quantityToOpen`, is opened
with openedAt set; the two quantities sum to `Q`. -/
theorem C3_open_split (s : Store) (now : Int) (newId id : String) (i : Item) (qto : Int)
    (hi : getById s id = some i) (hop : i.isOpened = false)
    (hq1 : 1 ≤ qto) (hq2 : qto < i.quantity) (hfresh : newId ∉ itemIds s) :
    openItem s now newId id qto =
      ({ items :=
           s.items.map (fun it => if it.id = id then { it with quantity := i.quantity - qto } else it)
           ++ [{ id := newId, name := i.name, quantity := qto,
                 storageAreaId := i.storageAreaId, createdAt := i.createdAt,
                 isOpened := true, openedAt := some now,
                 expiryDate := recomputeExpiry now i.expiryDate }],
         areas := s.areas },
       OpenResp.opened
         [{ i with quantity := i.quantity - qto },
          { id := newId, name := i.name, quantity := qto,
            storageAreaId := i.storageAreaId, createdAt := i.createdAt,
            isOpened := true, openedAt := some now,
            expiryDate := recomputeExpiry now i.expiryDate }]) ∧
    (i.quantity - qto) + qto = i.quantity ∧
    ({ i with quantity := i.quantity - qto }).isOpened = false ∧
    newId ≠ i.id := by
  have hne : newId ≠ i.id := by
    intro h
    exact hfresh (h ▸ List.mem_map_of_mem (fun it => it.id) (mem_of_getById hi))
  exact ⟨openItem_split_eq s now newId id i qto hi hq2, by omega, by simpa using hop, hne⟩

/-- Witness for C3: opening 2 of 5 on a concrete item splits into a
3-unit unopened original and a 2-unit opened copy. -/
theorem C3_witness :
    openItem storeA 1717230600000 "n1" "a" 2 =
      ({ items :=
           storeA.items.map (fun it => if it.id = "a" then { it with quantity := 3 } else it)
           ++ [{ id := "n1", name := itemA.name, quantity := 2,
                 storageAreaId := itemA.storageAreaId, createdAt := itemA.createdAt,
                 isOpened := true, openedAt := some 1717230600000,
                 expiryDate := recomputeExpiry 1717230600000 itemA.expiryDate }],
         areas := storeA.areas },
       OpenResp.opened
         [{ itemA with quantity := 3 },
          { id := "n1", name := itemA.name, quantity := 2,
            storageAreaId := itemA.storageAreaId, createdAt := itemA.createdAt,
            isOpened := true, openedAt := some 1717230600000,
            expiryDate := recomputeExpiry 1717230600000 itemA.expiryDate }]) ∧
    (3 : Int) + 2 = itemA.quantity :=
  let h := C3_open_split storeA 1717230600000 "n1" "a" itemA 2
    (by decide) (by decide) (by decide) (by decide) (by decide)
  ⟨h.1, h.2.1⟩

/-- C4: openItem with `quantityToOpen ≥ quantity` mutates the existing
row in place (isOpened true, openedAt set, expiryDate recomputed — the
update binds `newExpiryDate || null` — quantity unchanged), returns
exactly one record, and creates no new row and no new id. -/
theorem C4_open_full (s : Store) (now : Int) (newId id : String) (i : Item) (qto : Int)
    (hi : getById s id = some i) (hq : i.quantity ≤ qto) :
    openItem s now newId id qto =
      ({ items := s.items.map (fun it =>
           if it.id = id then
             { it with name := i.name, quantity := i.quantity, isOpened := true,
                       openedAt := some now,
                       expiryDate := orNull (recomputeExpiry now i.expiryDate) }
           else it),
         areas := s.areas },
       OpenResp.opened
         [{ i with isOpened := true, openedAt := some now,
                   expiryDate := orNull (recomputeExpiry now i.expiryDate) }]) ∧
    itemIds (openItem s now newId id qto).1 = itemIds s ∧
    (openItem s now newId id qto).1.items.length = s.items.length := by
  have hid : i.id = id := id_of_getById hi
  have heq : openItem s now newId id qto =
      ({ items := s.items.map (fun it =>
           if it.id = id then
             { it with name := i.name, quantity := i.quantity, isOpened := true,
                       openedAt := some now,
                       expiryDate := orNull (recomputeExpiry now i.expiryDate) }
           else it),
         areas := s.areas },
       OpenResp.opened
         [{ i with isOpened := true, openedAt := some now,
                   expiryDate := orNull (recomputeExpiry now i.expiryDate) }]) := by
    simp only [openItem, hi]
    rw [if_pos hq]
    have h2 : getById (updateItemRow s id i.name i.quantity true (some now)
        (orNull (recomputeExpiry now i.expiryDate))) id =
        some { i with isOpened := true, openedAt := some now,
                      expiryDate := orNull (recomputeExpiry now i.expiryDate) } := by
      rw [getById_updateItemRow, hi]
      simp [hid]
    simp only [h2]
    simp [updateItemRow]
  refine ⟨heq, ?_, ?_⟩
  · rw [heq]
    exact itemIds_map_id_pres s.items _ (fun x => by split <;> rfl)
  · rw [heq]
    simp

/-- Witness for C4: opening 5 of 5 on the concrete item mutates it in
place, returning one record and keeping the id set unchanged. -/
theorem C4_witness :
    (openItem storeA 1717230600000 "n1" "a" 5).2 =
      OpenResp.opened
        [{ itemA with isOpened := true, openedAt := some 1717230600000,
                      expiryDate := orNull (recomputeExpiry 1717230600000 itemA.expiryDate) }] ∧
    itemIds (openItem storeA 1717230600000 "n1" "a" 5).1 = itemIds storeA :=
  let h := C4_open_full storeA 1717230600000 "n1" "a" itemA 5 (by decide) (by decide)
  ⟨by rw [h.1], h.2.1⟩

/-- C9 counterexample: opening a stored 5-unit item with
`quantityToOpen = 0` is not rejected — the handler has no validation on
quantityToOpen — and the store is mutated (a zero-quantity opened row is
inserted), so the claimed state-preserving rejection is false. -/
theorem C9_counterexample :
    (openItem storeB 1000 "n2" "b" 0).1 ≠ storeB ∧
    (openItem storeB 1000 "n2" "b" 0).1.items.length = storeB.items.length + 1 := by
  decide

/-- C9 (amended): openItem performs no validation of quantityToOpen.  A
non-positive quantityToOpen on a stored item with quantity `Q ≥ 1` takes
the split branch: the original row's quantity becomes `Q - quantityToOpen`
(so it grows or stays), a new opened row with the non-positive quantity
is inserted, and the store is mutated. -/
theorem C9_open_no_validation (s : Store) (now : Int) (newId id : String) (i : Item) (qto : Int)
    (hi : getById s id = some i) (hq : 1 ≤ i.quantity) (hqto : qto ≤ 0) :
    openItem s now newId id qto =
      ({ items :=
           s.items.map (fun it => if it.id = id then { it with quantity := i.quantity - qto } else it)
           ++ [{ id := newId, name := i.name, quantity := qto,
                 storageAreaId := i.storageAreaId, createdAt := i.createdAt,
                 isOpened := true, openedAt := some now,
                 expiryDate := recomputeExpiry now i.expiryDate }],
         areas := s.areas },
       OpenResp.opened
         [{ i with quantity := i.quantity - qto },
          { id := newId, name := i.name, quantity := qto,
            storageAreaId := i.storageAreaId, createdAt := i.createdAt,
            isOpened := true, openedAt := some now,
            expiryDate := recomputeExpiry now i.expiryDate }]) ∧
    (openItem s now newId id qto).1.items.length = s.items.length + 1 := by
  have heq := openItem_split_eq s now newId id i qto hi (by omega)
  refine ⟨heq, ?_⟩
  rw [heq]
  simp

/-- Witness for the amended C9: opening 0 of the concrete 5-unit item
leaves the original at quantity 5 and inserts a 0-quantity opened row. -/
theorem C9_witness :
    openItem storeB 1000 "n2" "b" 0 =
      ({ items :=
           storeB.items.map (fun it => if it.id = "b" then { it with quantity := 5 } else it)
           ++ [{ id := "n2", name := itemB.name, quantity := 0,
                 storageAreaId := itemB.storageAreaId, createdAt := itemB.createdAt,
                 isOpened := true, openedAt := some 1000,
                 expiryDate := recomputeExpiry 1000 itemB.expiryDate }],
         areas := storeB.areas },
       OpenResp.opened
         [{ itemB with quantity := 5 },
          { id := "n2", name := itemB.name, quantity := 0,
            storageAreaId := itemB.storageAreaId, createdAt := itemB.createdAt,
            isOpened := true, openedAt := some 1000,
            expiryDate := recomputeExpiry 1000 itemB.expiryDate }]) ∧
    (openItem storeB 1000 "n2" "b" 0).1.items.length = storeB.items.length + 1 :=
  C9_open_no_validation storeB 1000 "n2" "b" itemB 0 (by decide) (by decide) (by decide)

/-- C5: expiry recompute on open.  For a parseable expiry: with
`daysLeft = ceil((expiry - today) / 1 day)` over the day-truncated now,
more than one day left yields the date `today + max(1, floor(daysLeft/2))`
days, otherwise the stored string is unchanged.  Concretely (now =
2024-06-01T08:30Z): 10 days out becomes 5 days out, and 1 day out or a
past date is left as is. -/
theorem C5_expiryHalving (now : Int) (s : String) (expMs : Int)
    (hparse : parseDateMs s = some expMs) :
    (1 < ceilDiv (expMs - Int.fdiv now msPerDay * msPerDay) msPerDay →
      recomputeExpiry now (some s) =
        some (formatDateMs (Int.fdiv now msPerDay * msPerDay +
          max 1 (Int.fdiv (ceilDiv (expMs - Int.fdiv now msPerDay * msPerDay) msPerDay) 2)
            * msPerDay))) ∧
    (ceilDiv (expMs - Int.fdiv now msPerDay * msPerDay) msPerDay ≤ 1 →
      recomputeExpiry now (some s) = some s) ∧
    recomputeExpiry 1717230600000 (some "2024-06-11") = some "2024-06-06" ∧
    recomputeExpiry 1717230600000 (some "2024-06-02") = some "2024-06-02" ∧
    recomputeExpiry 1717230600000 (some "2024-05-20") = some "2024-05-20" := by
  have hne : s ≠ "" := by
    intro h
    subst h
    simp [parseDateMs, parseDate] at hparse
  refine ⟨?_, ?_, by decide, by decide, by decide⟩
  · intro hgt
    simp only [recomputeExpiry]
    rw [if_neg hne]
    simp only [hparse]
    rw [if_pos hgt]
  · intro hle
    simp only [recomputeExpiry]
    rw [if_neg hne]
    simp only [hparse]
    rw [if_neg (by omega)]

/-- Witness for C5 at the concrete date pair: 2024-06-11 seen from
2024-06-01 halves to 2024-06-06. -/
theorem C5_witness :
    recomputeExpiry 1717230600000 (some "2024-06-11") = some "2024-06-06" :=
  (C5_expiryHalving 1717230600000 "2024-06-11" 1718064000000 (by decide)).2.2.1

theorem matchesKey_iff (areaId nm : String) (expiry : Option String) (it : Item) :
    matchesKey areaId nm expiry it = true ↔
      (it.storageAreaId = areaId ∧ strLower it.name = strLower nm ∧
       it.isOpened = false ∧ it.expiryDate = expiry) := by
  simp [matchesKey, and_assoc]

theorem matchesKey_congr (areaId : String) {nm nm' : String} (expiry : Option String)
    (h : strLower nm = strLower nm') :
    matchesKey areaId nm expiry = matchesKey areaId nm' expiry :=
  funext fun it => by simp [matchesKey, h]

theorem matchesKey_quantityUpd (areaId nm : String) (expiry : Option String)
    (id : String) (q : Int) (x : Item) :
    matchesKey areaId nm expiry (if x.id = id then { x with quantity := q } else x) =
      matchesKey areaId nm expiry x := by
  split <;> rfl

/-- C1: creating twice with the same case-insensitive name, area and
expiry (a genuine expiry value: absent or a non-empty string — the
empty string is the subject of C10), starting from a store with no
unopened record for that mergeable key, creates one record and then
merges into it: afterwards exactly one record carries the key, with
quantity `q1 + q2` and the id and createdAt of the first call's record. -/
theorem C1_merge_idempotence (s : Store) (now1 now2 : Int) (id1 id2 : String)
    (nm1 nm2 : String) (q1 q2 : Int) (areaId : String) (expiry : Option String)
    (hnm : strLower (strTrim nm1) = strLower (strTrim nm2))
    (h1 : strTrim nm1 ≠ "") (h2 : strTrim nm2 ≠ "") (harea : areaId ≠ "")
    (hq1 : 1 ≤ q1) (hq2 : 1 ≤ q2)
    (hexp : expiry ≠ some "")
    (hnokey : s.items.countP (matchesKey areaId (strTrim nm1) expiry) = 0)
    (hfresh : id1 ∉ itemIds s) :
    createOrMergeItem s now1 id1 nm1 q1 areaId expiry =
      ({ s with items := s.items ++
          [{ id := id1, name := strTrim nm1, quantity := q1, storageAreaId := areaId,
             createdAt := now1, isOpened := false, openedAt := none, expiryDate := expiry }] },
       CreateResp.created
         { id := id1, name := strTrim nm1, quantity := q1, storageAreaId := areaId,
           createdAt := now1, isOpened := false, openedAt := none, expiryDate := expiry }) ∧
    createOrMergeItem
      { s with items := s.items ++
          [{ id := id1, name := strTrim nm1, quantity := q1, storageAreaId := areaId,
             createdAt := now1, isOpened := false, openedAt := none, expiryDate := expiry }] }
      now2 id2 nm2 q2 areaId expiry =
      (updateQuantityRow
         { s with items := s.items ++
             [{ id := id1, name := strTrim nm1, quantity := q1, storageAreaId := areaId,
                createdAt := now1, isOpened := false, openedAt := none, expiryDate := expiry }] }
         id1 (q1 + q2),
       CreateResp.merged
         { id := id1, name := strTrim nm1, quantity := q1 + q2, storageAreaId := areaId,
           createdAt := now1, isOpened := false, openedAt := none, expiryDate := expiry }) ∧
    (updateQuantityRow
       { s with items := s.items ++
           [{ id := id1, name := strTrim nm1, quantity := q1, storageAreaId := areaId,
              createdAt := now1, isOpened := false, openedAt := none, expiryDate := expiry }] }
       id1 (q1 + q2)).items.countP (matchesKey areaId (strTrim nm1) expiry) = 1 := by
  have horn : orNull expiry = expiry := orNull_eq_self hexp
  have hnomatch : ∀ x ∈ s.items, ¬ (matchesKey areaId (strTrim nm1) expiry x = true) :=
    List.countP_eq_zero.mp hnokey
  have hfind1 : findMergeable s areaId (strTrim nm1) (orNull expiry) = none := by
    unfold findMergeable
    rw [horn]
    exact List.find?_eq_none.mpr hnomatch
  set R1 : Item :=
    { id := id1, name := strTrim nm1, quantity := q1, storageAreaId := areaId,
      createdAt := now1, isOpened := false, openedAt := none, expiryDate := expiry } with hR1
  have e1 : createOrMergeItem s now1 id1 nm1 q1 areaId expiry =
      ({ s with items := s.items ++ [R1] }, CreateResp.created R1) := by
    simp only [createOrMergeItem]
    rw [if_neg h1, if_neg (by omega : ¬ q1 < 1), if_neg harea]
    simp only [hfind1]
  have hcong : matchesKey areaId (strTrim nm2) expiry = matchesKey areaId (strTrim nm1) expiry :=
    matchesKey_congr areaId expiry hnm.symm
  have hkeyR1 : matchesKey areaId (strTrim nm1) expiry R1 = true := by
    simp [matchesKey, hR1]
  have hfind2 : findMergeable { s with items := s.items ++ [R1] } areaId (strTrim nm2)
      (orNull expiry) = some R1 := by
    unfold findMergeable
    rw [horn]
    show (s.items ++ [R1]).find? (matchesKey areaId (strTrim nm2) expiry) = some R1
    rw [hcong, List.find?_append, List.find?_eq_none.mpr hnomatch]
    simp [List.find?_cons, hkeyR1]
  have hgb1 : getById { s with items := s.items ++ [R1] } id1 = some R1 := by
    unfold getById
    show (s.items ++ [R1]).find? (fun it => it.id == id1) = some R1
    rw [List.find?_append, List.find?_eq_none.mpr ?_]
    · simp [List.find?_cons, hR1]
    · intro x hx
      have hmem : x.id ∈ itemIds s := List.mem_map_of_mem _ hx
      simp only [beq_iff_eq]
      intro hxe
      exact hfresh (hxe ▸ hmem)
  have hgb2 : getById (updateQuantityRow { s with items := s.items ++ [R1] } id1 (q1 + q2)) id1 =
      some { R1 with quantity := q1 + q2 } := by
    rw [getById_updateQuantityRow, hgb1]
    simp
  have e2 : createOrMergeItem { s with items := s.items ++ [R1] } now2 id2 nm2 q2 areaId expiry =
      (updateQuantityRow { s with items := s.items ++ [R1] } id1 (q1 + q2),
       CreateResp.merged { R1 with quantity := q1 + q2 }) := by
    simp only [createOrMergeItem]
    rw [if_neg h2, if_neg (by omega : ¬ q2 < 1), if_neg harea]
    simp only [hfind2]
    simp only [hR1]
    simp only [hgb2]
  have hcnt : (updateQuantityRow { s with items := s.items ++ [R1] } id1 (q1 + q2)).items.countP
      (matchesKey areaId (strTrim nm1) expiry) = 1 := by
    show ((s.items ++ [R1]).map
        (fun it => if it.id = id1 then { it with quantity := q1 + q2 } else it)).countP
        (matchesKey areaId (strTrim nm1) expiry) = 1
    rw [List.countP_map]
    have hc : List.countP
        ((matchesKey areaId (strTrim nm1) expiry) ∘
          (fun it => if it.id = id1 then { it with quantity := q1 + q2 } else it))
        (s.items ++ [R1]) =
        List.countP (matchesKey areaId (strTrim nm1) expiry) (s.items ++ [R1]) :=
      List.countP_congr (fun x _ => by
        rw [Function.comp_apply, matchesKey_quantityUpd])
    rw [hc, List.countP_append, hnokey]
    simp [List.countP_cons, hkeyR1]
  exact ⟨e1, e2, hcnt⟩

/-- Witness for C1 on a concrete empty-ish store: adding Eggs twice
(with different casing, no expiry) to the fridge leaves one record of
quantity 12 for the key. -/
theorem C1_witness :
    (createOrMergeItem { items := [], areas := defaultAreas } 100 "e1" "Eggs" 6 "fridge" none).2 =
      CreateResp.created
        { id := "e1", name := "Eggs", quantity := 6, storageAreaId := "fridge",
          createdAt := 100, isOpened := false, openedAt := none, expiryDate := none } ∧
    (createOrMergeItem
      { items := [{ id := "e1", name := "Eggs", quantity := 6, storageAreaId := "fridge",
                    createdAt := 100, isOpened := false, openedAt := none, expiryDate := none }],
        areas := defaultAreas } 200 "e2" "eggs" 6 "fridge" none).2 =
      CreateResp.merged
        { id := "e1", name := "Eggs", quantity := 12, storageAreaId := "fridge",
          createdAt := 100, isOpened := false, openedAt := none, expiryDate := none } := by
  have h := C1_merge_idempotence { items := [], areas := defaultAreas } 100 200 "e1" "e2"
    "Eggs" "eggs" 6 6 "fridge" none (by decide) (by decide) (by decide) (by decide)
    (by decide) (by decide) (by decide) (by decide) (by decide)
  revert h
  decide

/-- C2: for a valid request (non-empty trimmed name, quantity ≥ 1, a
storage area id, and a genuine expiry — not the empty string), the call
reports a merge exactly when the store holds an item in the same area,
unopened, with case-insensitively equal name and equal expiry (both
absent counts as equal, `Option.none = Option.none`); when no such item
exists — in particular when names differ beyond case, when exactly one
side has an expiry, or when the only candidate is opened — a new record
is created instead. -/
theorem C2_merge_condition (s : Store) (now : Int) (newId : String)
    (nm : String) (q : Int) (areaId : String) (expiry : Option String)
    (hn : strTrim nm ≠ "") (hq : 1 ≤ q) (harea : areaId ≠ "") (hexp : expiry ≠ some "") :
    ((∃ it, (createOrMergeItem s now newId nm q areaId expiry).2 = CreateResp.merged it) ↔
      ∃ it ∈ s.items, it.storageAreaId = areaId ∧ strLower it.name = strLower (strTrim nm) ∧
        it.isOpened = false ∧ it.expiryDate = expiry) ∧
    ((createOrMergeItem s now newId nm q areaId expiry).2 =
        CreateResp.created
          { id := newId, name := strTrim nm, quantity := q, storageAreaId := areaId,
            createdAt := now, isOpened := false, openedAt := none, expiryDate := expiry } ↔
      ∀ it ∈ s.items, ¬ (it.storageAreaId = areaId ∧ strLower it.name = strLower (strTrim nm) ∧
        it.isOpened = false ∧ it.expiryDate = expiry)) := by
  have horn : orNull expiry = expiry := orNull_eq_self hexp
  cases hfm : findMergeable s areaId (strTrim nm) expiry with
  | none =>
    have hnone : ∀ it ∈ s.items, ¬ (matchesKey areaId (strTrim nm) expiry it = true) :=
      List.find?_eq_none.mp hfm
    have e : (createOrMergeItem s now newId nm q areaId expiry).2 =
        CreateResp.created
          { id := newId, name := strTrim nm, quantity := q, storageAreaId := areaId,
            createdAt := now, isOpened := false, openedAt := none, expiryDate := expiry } := by
      simp only [createOrMergeItem]
      rw [if_neg hn, if_neg (by omega : ¬ q < 1), if_neg harea, horn]
      simp only [hfm]
    refine ⟨⟨?_, ?_⟩, ?_, ?_⟩
    · rintro ⟨it, hit⟩
      rw [e] at hit
      exact absurd hit (by simp)
    · rintro ⟨it, hmem, hprops⟩
      exact absurd ((matchesKey_iff areaId (strTrim nm) expiry it).mpr hprops) (hnone it hmem)
    · intro _ it hmem hprops
      exact (hnone it hmem) ((matchesKey_iff areaId (strTrim nm) expiry it).mpr hprops)
    · intro _
      exact e
  | some existing =>
    have hkey : matchesKey areaId (strTrim nm) expiry existing = true := List.find?_some hfm
    have hmem : existing ∈ s.items := List.mem_of_find?_eq_some hfm
    obtain ⟨u, hu⟩ : ∃ u,
        getById (updateQuantityRow s existing.id (existing.quantity + q)) existing.id = some u := by
      rw [getById_updateQuantityRow]
      cases hg : getById s existing.id with
      | some v => exact ⟨_, rfl⟩
      | none =>
        exfalso
        have hs : (s.items.find? (fun it => it.id == existing.id)).isSome :=
          List.find?_isSome.mpr ⟨existing, hmem, by simp⟩
        rw [getById] at hg
        simp [hg] at hs
    have e : (createOrMergeItem s now newId nm q areaId expiry).2 = CreateResp.merged u := by
      simp only [createOrMergeItem]
      rw [if_neg hn, if_neg (by omega : ¬ q < 1), if_neg harea, horn]
      simp only [hfm]
      simp only [hu]
    refine ⟨⟨?_, ?_⟩, ?_, ?_⟩
    · intro _
      exact ⟨existing, hmem, (matchesKey_iff areaId (strTrim nm) expiry existing).mp hkey⟩
    · intro _
      exact ⟨u, e⟩
    · intro hc
      rw [e] at hc
      exact absurd hc (by simp)
    · intro hall
      exact absurd ((matchesKey_iff areaId (strTrim nm) expiry existing).mp hkey)
        (hall existing hmem)

/-- Witness for C2: "MILK " (different case, trailing space) with the
matching expiry merges into the stored "Milk" record of the concrete
store. -/
theorem C2_witness :
    (∃ it, (createOrMergeItem storeA 200 "c" "MILK " 3 "fridge" (some "2024-06-11")).2 =
        CreateResp.merged it) ↔
      ∃ it ∈ storeA.items, it.storageAreaId = "fridge" ∧
        strLower it.name = strLower (strTrim "MILK ") ∧
        it.isOpened = false ∧ it.expiryDate = some "2024-06-11" :=
  (C2_merge_condition storeA 200 "c" "MILK " 3 "fridge" (some "2024-06-11")
    (by decide) (by decide) (by decide) (by decide)).1

/-- C10: posting twice with `expiryDate = ""` never merges: the lookup
coerces the empty string to NULL while the insert stores it verbatim, so
two distinct unopened records with the same case-insensitive name end up
in the same area — the mergeable-key uniqueness fails for this input. -/
theorem C10_empty_expiry_never_merges (s : Store) (now1 now2 : Int) (id1 id2 : String)
    (nm : String) (q1 q2 : Int) (areaId : String)
    (hn : strTrim nm ≠ "") (harea : areaId ≠ "") (hq1 : 1 ≤ q1) (hq2 : 1 ≤ q2)
    (hnull : ∀ x ∈ s.items, ¬ (matchesKey areaId (strTrim nm) none x = true))
    (hne : id2 ≠ id1) :
    createOrMergeItem s now1 id1 nm q1 areaId (some "") =
      ({ s with items := s.items ++
          [{ id := id1, name := strTrim nm, quantity := q1, storageAreaId := areaId,
             createdAt := now1, isOpened := false, openedAt := none, expiryDate := some "" }] },
       CreateResp.created
         { id := id1, name := strTrim nm, quantity := q1, storageAreaId := areaId,
           createdAt := now1, isOpened := false, openedAt := none, expiryDate := some "" }) ∧
    createOrMergeItem
      { s with items := s.items ++
          [{ id := id1, name := strTrim nm, quantity := q1, storageAreaId := areaId,
             createdAt := now1, isOpened := false, openedAt := none, expiryDate := some "" }] }
      now2 id2 nm q2 areaId (some "") =
      ({ s with items := s.items ++
          [{ id := id1, name := strTrim nm, quantity := q1, storageAreaId := areaId,
             createdAt := now1, isOpened := false, openedAt := none, expiryDate := some "" },
           { id := id2, name := strTrim nm, quantity := q2, storageAreaId := areaId,
             createdAt := now2, isOpened := false, openedAt := none, expiryDate := some "" }] },
       CreateResp.created
         { id := id2, name := strTrim nm, quantity := q2, storageAreaId := areaId,
           createdAt := now2, isOpened := false, openedAt := none, expiryDate := some "" }) ∧
    ({ id := id1, name := strTrim nm, quantity := q1, storageAreaId := areaId,
       createdAt := now1, isOpened := false, openedAt := none,
       expiryDate := some "" } : Item) ≠
      { id := id2, name := strTrim nm, quantity := q2, storageAreaId := areaId,
        createdAt := now2, isOpened := false, openedAt := none, expiryDate := some "" } := by
  set R1 : Item :=
    { id := id1, name := strTrim nm, quantity := q1, storageAreaId := areaId,
      createdAt := now1, isOpened := false, openedAt := none, expiryDate := some "" } with hR1
  set R2 : Item :=
    { id := id2, name := strTrim nm, quantity := q2, storageAreaId := areaId,
      createdAt := now2, isOpened := false, openedAt := none, expiryDate := some "" } with hR2
  have hfind1 : findMergeable s areaId (strTrim nm) (orNull (some "")) = none := by
    unfold findMergeable
    show s.items.find? (matchesKey areaId (strTrim nm) none) = none
    exact List.find?_eq_none.mpr hnull
  have e1 : createOrMergeItem s now1 id1 nm q1 areaId (some "") =
      ({ s with items := s.items ++ [R1] }, CreateResp.created R1) := by
    simp only [createOrMergeItem]
    rw [if_neg hn, if_neg (by omega : ¬ q1 < 1), if_neg harea]
    simp only [hfind1]
  have hfind2 : findMergeable { s with items := s.items ++ [R1] } areaId (strTrim nm)
      (orNull (some "")) = none := by
    unfold findMergeable
    show (s.items ++ [R1]).find? (matchesKey areaId (strTrim nm) none) = none
    rw [List.find?_append, List.find?_eq_none.mpr hnull]
    have hR1k : matchesKey areaId (strTrim nm) none R1 = false := by
      simp [matchesKey, hR1]
    simp [List.find?_cons, hR1k]
  have e2 : createOrMergeItem { s with items := s.items ++ [R1] } now2 id2 nm q2 areaId (some "") =
      ({ s with items := s.items ++ [R1, R2] }, CreateResp.created R2) := by
    simp only [createOrMergeItem]
    rw [if_neg hn, if_neg (by omega : ¬ q2 < 1), if_neg harea]
    simp only [hfind2]
    simp [List.append_assoc]
  refine ⟨e1, e2, ?_⟩
  intro hcontra
  exact hne (congrArg Item.id hcontra).symm

/-- Witness for C10: two "Jam" posts with empty-string expiry into the
fridge of an empty store yield two separate records. -/
theorem C10_witness :
    (createOrMergeItem { items := [], areas := defaultAreas } 100 "j1" "Jam" 1 "fridge"
      (some "")).2 =
      CreateResp.created
        { id := "j1", name := "Jam", quantity := 1, storageAreaId := "fridge",
          createdAt := 100, isOpened := false, openedAt := none, expiryDate := some "" } ∧
    (createOrMergeItem
      { items := [{ id := "j1", name := "Jam", quantity := 1, storageAreaId := "fridge",
                    createdAt := 100, isOpened := false, openedAt := none,
                    expiryDate := some "" }],
        areas := defaultAreas } 200 "j2" "Jam" 1 "fridge" (some "")).2 =
      CreateResp.created
        { id := "j2", name := "Jam", quantity := 1, storageAreaId := "fridge",
          createdAt := 200, isOpened := false, openedAt := none, expiryDate := some "" } := by
  have h := C10_empty_expiry_never_merges { items := [], areas := defaultAreas } 100 200 "j1" "j2"
    "Jam" 1 1 "fridge" (by decide) (by decide) (by decide) (by decide)
    (by decide) (by decide)
  revert h
  decide

/-! ## Machinery for the order invariant (C7, C8) -/

/-- The non-order fields of an area row. -/
def stripOrder (a : Area) : String × String × String × String :=
  (a.id, a.name, a.icon, a.color)

theorem ordersOf_def (l : List Area) : ordersOf l = l.map (fun a => a.order) := rfl

theorem isOrderPerm_def (l : List Area) :
    IsOrderPerm l ↔ (ordersOf l).Perm ((List.range l.length).map Int.ofNat) := Iff.rfl

theorem reorderFrom_eq : ∀ (ids : List String), ids.Nodup → ∀ (l : List Area) (k : Nat),
    reorderFrom l ids k = l.map (fun a =>
      if a.id ∈ ids then { a with order := ((k + ids.indexOf a.id : Nat) : Int) } else a) := by
  intro ids
  induction ids with
  | nil =>
    intro _ l k
    simp [reorderFrom]
  | cons id0 rest ih =>
    intro hnd l k
    obtain ⟨hid0, hnd'⟩ := List.nodup_cons.mp hnd
    show reorderFrom
      (l.map (fun a => if a.id = id0 then { a with order := (k : Int) } else a)) rest (k + 1) = _
    rw [ih hnd' _ (k + 1), List.map_map]
    refine List.map_congr_left (fun a _ => ?_)
    simp only [Function.comp_apply]
    by_cases h0 : a.id = id0
    · rw [if_pos h0]
      show (if a.id ∈ rest then _ else _) = _
      rw [if_neg (fun hr => hid0 (h0 ▸ hr)),
        if_pos (show a.id ∈ id0 :: rest from h0 ▸ List.mem_cons_self id0 rest),
        h0, List.indexOf_cons_self, Nat.add_zero]
    · rw [if_neg h0]
      by_cases hmem : a.id ∈ rest
      · rw [if_pos hmem, if_pos (List.mem_cons_of_mem _ hmem)]
        have hidx : (k + 1) + rest.indexOf a.id = k + (id0 :: rest).indexOf a.id := by
          rw [List.indexOf_cons_ne _ (fun h => h0 h.symm)]
          omega
        rw [hidx]
      · rw [if_neg hmem, if_neg (by simp [List.mem_cons, h0, hmem])]

theorem reorderAreas_eq (l : List Area) (ids : List String)
    (hnd : ids.Nodup) (hcov : ∀ a ∈ l, a.id ∈ ids) :
    reorderAreas l ids =
      l.map (fun a => { a with order := ((ids.indexOf a.id : Nat) : Int) }) := by
  unfold reorderAreas
  rw [reorderFrom_eq ids hnd l 0]
  refine List.map_congr_left (fun a ha => ?_)
  rw [if_pos (hcov a ha), Nat.zero_add]

theorem nodup_indexOf_getElem {α : Type} [DecidableEq α] (l : List α) (hnd : l.Nodup)
    (n : Nat) (hn : n < l.length) : l.indexOf l[n] = n := by
  have hmem : l[n] ∈ l := List.getElem_mem hn
  have hlt : l.indexOf l[n] < l.length := List.indexOf_lt_length.mpr hmem
  have hget : l[l.indexOf l[n]] = l[n] := List.getElem_indexOf hlt
  have h2 : l.get ⟨l.indexOf l[n], hlt⟩ = l.get ⟨n, hn⟩ := by
    simpa [List.get_eq_getElem] using hget
  have h3 := hnd.get_inj_iff.mp h2
  exact congrArg Fin.val h3

theorem map_indexOf_eq_range {α : Type} [DecidableEq α] (l : List α) (hnd : l.Nodup) :
    l.map (fun x => l.indexOf x) = List.range l.length := by
  refine List.ext_getElem (by simp) (fun n h1 h2 => ?_)
  simp only [List.getElem_map, List.getElem_range]
  exact nodup_indexOf_getElem l hnd n (by simpa using h1)

theorem ordersOf_reorderAreas_perm (l : List Area) (ids : List String)
    (hnd : ids.Nodup) (hperm : (l.map (fun a => a.id)).Perm ids) :
    (ordersOf (reorderAreas l ids)).Perm ((List.range l.length).map Int.ofNat) := by
  have hcov : ∀ a ∈ l, a.id ∈ ids := fun a ha => hperm.mem_iff.mp (List.mem_map_of_mem _ ha)
  rw [reorderAreas_eq l ids hnd hcov]
  have hlen : ids.length = l.length := by
    have h0 := hperm.length_eq
    simp only [List.length_map] at h0
    omega
  have hstep : ordersOf (l.map (fun a =>
      ({ a with order := ((ids.indexOf a.id : Nat) : Int) } : Area))) =
      (l.map (fun a => a.id)).map (fun x => ((ids.indexOf x : Nat) : Int)) := by
    unfold ordersOf
    rw [List.map_map, List.map_map]
    exact List.map_congr_left (fun a _ => rfl)
  rw [hstep]
  have h2 := hperm.map (fun x : String => ((ids.indexOf x : Nat) : Int))
  have h3 : ids.map (fun x => ((ids.indexOf x : Nat) : Int)) =
      (List.range l.length).map Int.ofNat := by
    have h4 : ids.map (fun x => ((ids.indexOf x : Nat) : Int)) =
        (ids.map (fun x => ids.indexOf x)).map Int.ofNat := by
      rw [List.map_map]
      rfl
    rw [h4, map_indexOf_eq_range ids hnd, hlen]
  rw [← h3]
  exact h2

theorem isOrderPerm_reorderAreas (l : List Area) (ids : List String)
    (hnd : ids.Nodup) (hperm : (l.map (fun a => a.id)).Perm ids) :
    IsOrderPerm (reorderAreas l ids) := by
  have hcov : ∀ a ∈ l, a.id ∈ ids := fun a ha => hperm.mem_iff.mp (List.mem_map_of_mem _ ha)
  unfold IsOrderPerm
  have hlen : (reorderAreas l ids).length = l.length := by
    rw [reorderAreas_eq l ids hnd hcov, List.length_map]
  rw [hlen]
  exact ordersOf_reorderAreas_perm l ids hnd hperm

theorem sorted_orders_lt (L : List Area) (hs : List.Sorted byOrder L)
    (hnd : (ordersOf L).Nodup) :
    ∀ (i j : Nat) (hi : i < L.length) (hj : j < L.length),
      i < j ↔ (L[i]).order < (L[j]).order := by
  have fwd : ∀ (i j : Nat) (hi : i < L.length) (hj : j < L.length),
      i < j → (L[i]).order < (L[j]).order := by
    intro i j hi hj hij
    have hle : byOrder (L.get ⟨i, hi⟩) (L.get ⟨j, hj⟩) :=
      hs.rel_get_of_lt (by exact hij)
    have hne : (L[i]).order ≠ (L[j]).order := by
      intro he
      have h1 : (ordersOf L).get ⟨i, by simpa [ordersOf] using hi⟩ =
          (ordersOf L).get ⟨j, by simpa [ordersOf] using hj⟩ := by
        simp only [ordersOf, List.get_eq_getElem, List.getElem_map]
        exact he
      have h2 := hnd.get_inj_iff.mp h1
      have h3 := congrArg Fin.val h2
      simp only at h3
      omega
    exact lt_of_le_of_ne (by simpa [byOrder, List.get_eq_getElem] using hle) hne
  intro i j hi hj
  refine ⟨fwd i j hi hj, fun hlt => ?_⟩
  by_contra hij
  have hle : j ≤ i := Nat.le_of_not_lt hij
  rcases Nat.eq_or_lt_of_le hle with he | hlt2
  · subst he
    exact lt_irrefl _ hlt
  · exact absurd hlt (not_lt_of_gt (fwd j i hj hi hlt2))

theorem sortAreas_getElem_indexOf (F : List Area)
    (hFids : (F.map (fun a => a.id)).Nodup) (a : Area) (ha : a ∈ F) :
    ∃ hj : ((sortAreas F).map (fun x => x.id)).indexOf a.id < (sortAreas F).length,
      (sortAreas F)[((sortAreas F).map (fun x => x.id)).indexOf a.id] = a := by
  have hSperm : (sortAreas F).Perm F := List.perm_insertionSort byOrder F
  have hSids : ((sortAreas F).map (fun x => x.id)).Nodup :=
    ((hSperm.map (fun x => x.id)).nodup_iff).mpr hFids
  have haS : a ∈ sortAreas F := hSperm.mem_iff.mpr ha
  have hmem : a.id ∈ (sortAreas F).map (fun x => x.id) := List.mem_map_of_mem _ haS
  have hj0 : ((sortAreas F).map (fun x => x.id)).indexOf a.id <
      ((sortAreas F).map (fun x => x.id)).length := List.indexOf_lt_length.mpr hmem
  have hj : ((sortAreas F).map (fun x => x.id)).indexOf a.id < (sortAreas F).length := by
    simpa using hj0
  refine ⟨hj, ?_⟩
  have hgid : ((sortAreas F).map (fun x => x.id))[((sortAreas F).map
      (fun x => x.id)).indexOf a.id] = a.id := List.getElem_indexOf hj0
  rw [List.getElem_map] at hgid
  exact List.inj_on_of_nodup_map hSids (List.getElem_mem hj) haS hgid

theorem deleteArea_eq (s : Store) (id : String) (a0 : Area)
    (hfind : s.areas.find? (fun a => a.id == id) = some a0) :
    deleteArea s id =
      ({ items := s.items.filter (fun it => it.storageAreaId != id),
         areas := reorderAreas (s.areas.filter (fun a => a.id != id))
           ((sortAreas (s.areas.filter (fun a => a.id != id))).map (fun a => a.id)) },
       DeleteResp.noContent) := by
  simp only [deleteArea, hfind]
  by_cases hE : ((sortAreas (s.areas.filter (fun a => a.id != id))).map
      (fun a => a.id)).isEmpty
  · rw [if_pos hE, List.isEmpty_iff.mp hE]
    rfl
  · rw [if_neg hE]

theorem filter_ne_length (s : Store) (id : String) (a0 : Area)
    (hids : (s.areas.map (fun a => a.id)).Nodup)
    (hfind : s.areas.find? (fun a => a.id == id) = some a0) :
    (s.areas.filter (fun a => a.id != id)).length + 1 = s.areas.length := by
  have hmem : a0 ∈ s.areas := List.mem_of_find?_eq_some hfind
  have ha0 := List.find?_some hfind
  have hcnt : s.areas.countP (fun a => a.id == id) = 1 := by
    have hpos : 0 < s.areas.countP (fun a => a.id == id) :=
      List.countP_pos_iff.mpr ⟨a0, hmem, ha0⟩
    have hle : s.areas.countP (fun a => a.id == id) ≤ 1 := by
      have he : s.areas.countP (fun a => a.id == id) =
          (s.areas.map (fun a => a.id)).count id := by
        rw [List.count, List.countP_map]
        rfl
      rw [he]
      exact List.nodup_iff_count_le_one.mp hids id
    omega
  have hpart := List.length_eq_length_filter_add (l := s.areas) (fun a => a.id == id)
  rw [← List.countP_eq_length_filter, hcnt] at hpart
  show (s.areas.filter (fun a => !(a.id == id))).length + 1 = s.areas.length
  omega

theorem reordered_orders_iff (F : List Area)
    (hFids : (F.map (fun a => a.id)).Nodup)
    (hFord : (ordersOf F).Nodup)
    (a b : Area) (ha : a ∈ F) (hb : b ∈ F) :
    ((((sortAreas F).map (fun x => x.id)).indexOf a.id : Nat) : Int) <
      ((((sortAreas F).map (fun x => x.id)).indexOf b.id : Nat) : Int) ↔
    a.order < b.order := by
  obtain ⟨hja, hga⟩ := sortAreas_getElem_indexOf F hFids a ha
  obtain ⟨hjb, hgb⟩ := sortAreas_getElem_indexOf F hFids b hb
  have hSperm : (sortAreas F).Perm F := List.perm_insertionSort byOrder F
  rw [ordersOf_def] at hFord
  have hSord : (ordersOf (sortAreas F)).Nodup := by
    rw [ordersOf_def]
    exact (List.Perm.nodup_iff (hSperm.map (fun a => a.order))).mpr hFord
  have hsorted := List.sorted_insertionSort byOrder F
  have hiff := sorted_orders_lt (sortAreas F) hsorted hSord _ _ hja hjb
  rw [hga, hgb] at hiff
  constructor
  · intro h
    exact hiff.mp (by exact_mod_cast h)
  · intro h
    exact_mod_cast hiff.mpr h

/-- C7: deleting an area from a store whose area ids are distinct and
whose orders are a permutation of `0..N-1`: an unknown id is NotFound
with the store unchanged; otherwise all items of that area are deleted,
the area row disappears, the surviving rows keep id/name/icon/color in
place, and their orders are re-packed to exactly `0..N-2` preserving
the original relative order. -/
theorem C7_deleteArea (s : Store) (id : String)
    (hids : (s.areas.map (fun a => a.id)).Nodup)
    (hperm : IsOrderPerm s.areas) :
    (s.areas.find? (fun a => a.id == id) = none → deleteArea s id = (s, DeleteResp.notFound)) ∧
    (∀ a0, s.areas.find? (fun a => a.id == id) = some a0 →
      (deleteArea s id).2 = DeleteResp.noContent ∧
      (deleteArea s id).1.items = s.items.filter (fun it => it.storageAreaId != id) ∧
      (∀ it ∈ (deleteArea s id).1.items, it.storageAreaId ≠ id) ∧
      (deleteArea s id).1.areas.length + 1 = s.areas.length ∧
      (∀ a' ∈ (deleteArea s id).1.areas, a'.id ≠ id) ∧
      (deleteArea s id).1.areas.map stripOrder =
        (s.areas.filter (fun a => a.id != id)).map stripOrder ∧
      IsOrderPerm (deleteArea s id).1.areas ∧
      (∀ a' ∈ (deleteArea s id).1.areas, ∀ b' ∈ (deleteArea s id).1.areas,
        ∀ a ∈ s.areas.filter (fun a => a.id != id),
        ∀ b ∈ s.areas.filter (fun a => a.id != id),
          a'.id = a.id → b'.id = b.id → (a'.order < b'.order ↔ a.order < b.order))) := by
  constructor
  · intro h
    simp [deleteArea, h]
  · intro a0 hfind
    have heq := deleteArea_eq s id a0 hfind
    have hFids : ((s.areas.filter (fun a => a.id != id)).map (fun a => a.id)).Nodup :=
      ((List.filter_sublist s.areas).map (fun a => a.id)).nodup hids
    have hRange : (ordersOf s.areas).Nodup :=
      (List.Perm.nodup_iff ((isOrderPerm_def s.areas).mp hperm)).mpr
        ((List.nodup_range _).map (fun a b h => Int.ofNat.inj h))
    rw [ordersOf_def] at hRange
    have hFord : (ordersOf (s.areas.filter (fun a => a.id != id))).Nodup := by
      rw [ordersOf_def]
      exact ((List.filter_sublist s.areas).map (fun a => a.order)).nodup hRange
    have hSperm : (sortAreas (s.areas.filter (fun a => a.id != id))).Perm
        (s.areas.filter (fun a => a.id != id)) := List.perm_insertionSort byOrder _
    have hpermF : ((s.areas.filter (fun a => a.id != id)).map (fun a => a.id)).Perm
        ((sortAreas (s.areas.filter (fun a => a.id != id))).map (fun a => a.id)) :=
      (hSperm.map (fun a => a.id)).symm
    have hnd : ((sortAreas (s.areas.filter (fun a => a.id != id))).map
        (fun a => a.id)).Nodup := hpermF.nodup_iff.mp hFids
    have hcov : ∀ a ∈ s.areas.filter (fun a => a.id != id),
        a.id ∈ (sortAreas (s.areas.filter (fun a => a.id != id))).map (fun a => a.id) :=
      fun a ha => hpermF.mem_iff.mp (List.mem_map_of_mem _ ha)
    have hAreasEq : (deleteArea s id).1.areas =
        (s.areas.filter (fun a => a.id != id)).map (fun a =>
          { a with order := ((((sortAreas (s.areas.filter (fun a => a.id != id))).map
              (fun a => a.id)).indexOf a.id : Nat) : Int) }) := by
      rw [heq]
      exact reorderAreas_eq _ _ hnd hcov
    refine ⟨by rw [heq], by rw [heq], ?_, ?_, ?_, ?_, ?_, ?_⟩
    · rw [heq]
      intro it hit
      have := List.of_mem_filter hit
      simpa using this
    · rw [hAreasEq, List.length_map]
      exact filter_ne_length s id a0 hids hfind
    · rw [hAreasEq]
      intro a' ha'
      obtain ⟨a₁, ha₁, rfl⟩ := List.mem_map.mp ha'
      have := List.of_mem_filter ha₁
      simpa using this
    · rw [hAreasEq, List.map_map]
      exact List.map_congr_left (fun a _ => rfl)
    · rw [heq]
      exact isOrderPerm_reorderAreas _ _ hnd hpermF
    · rw [hAreasEq]
      intro a' ha' b' hb' a ha b hb hida hidb
      obtain ⟨a₁, ha₁, rfl⟩ := List.mem_map.mp ha'
      obtain ⟨b₁, hb₁, rfl⟩ := List.mem_map.mp hb'
      have hea : a₁ = a := List.inj_on_of_nodup_map hFids ha₁ ha hida
      have heb : b₁ = b := List.inj_on_of_nodup_map hFids hb₁ hb hidb
      subst hea
      subst heb
      exact reordered_orders_iff _ hFids hFord a₁ b₁ ha hb

/-- Witness for C7: deleting the freezer from the three seeded areas
leaves fridge and pantry with orders 0 and 1 and relative order intact. -/
theorem C7_witness :
    (deleteArea { items := [itemA], areas := defaultAreas } "freezer").2 =
      DeleteResp.noContent ∧
    (deleteArea { items := [itemA], areas := defaultAreas } "freezer").1.areas.length + 1 =
      defaultAreas.length ∧
    IsOrderPerm (deleteArea { items := [itemA], areas := defaultAreas } "freezer").1.areas := by
  have h := (C7_deleteArea { items := [itemA], areas := defaultAreas } "freezer"
    (by decide) (by decide)).2
    { id := "freezer", name := "Freezer", icon := "snowflake", color := "blue", order := 1 }
    (by decide)
  exact ⟨h.1, h.2.2.2.1, h.2.2.2.2.2.2.1⟩

theorem max_orders (s : Store) (hperm : IsOrderPerm s.areas) (hne : s.areas ≠ []) :
    (s.areas.map (fun a => a.order)).max? = some ((s.areas.length : Int) - 1) := by
  haveI : Std.Antisymm ((· ≤ ·) : Int → Int → Prop) := ⟨fun h h' => le_antisymm h h'⟩
  have hp := (isOrderPerm_def s.areas).mp hperm
  rw [ordersOf_def] at hp
  have hlen : 0 < s.areas.length := List.length_pos.mpr hne
  apply (List.max?_eq_some_iff (fun a => le_refl a) max_choice (fun _ _ _ => max_le_iff)).mpr
  constructor
  · apply hp.mem_iff.mpr
    apply List.mem_map.mpr
    refine ⟨s.areas.length - 1, List.mem_range.mpr (by omega), ?_⟩
    rw [Int.ofNat_eq_natCast]
    omega
  · intro b hb
    obtain ⟨k, hk, rfl⟩ := List.mem_map.mp (hp.mem_iff.mp hb)
    have := List.mem_range.mp hk
    rw [Int.ofNat_eq_natCast]
    omega

theorem deleteArea_isOrderPerm (s : Store) (id : String) (a0 : Area)
    (hids : (s.areas.map (fun a => a.id)).Nodup)
    (hfind : s.areas.find? (fun a => a.id == id) = some a0) :
    IsOrderPerm (deleteArea s id).1.areas := by
  rw [deleteArea_eq s id a0 hfind]
  have hFids : ((s.areas.filter (fun a => a.id != id)).map (fun a => a.id)).Nodup :=
    ((List.filter_sublist s.areas).map (fun a => a.id)).nodup hids
  have hSperm : (sortAreas (s.areas.filter (fun a => a.id != id))).Perm
      (s.areas.filter (fun a => a.id != id)) := List.perm_insertionSort byOrder _
  have hpermF : ((s.areas.filter (fun a => a.id != id)).map (fun a => a.id)).Perm
      ((sortAreas (s.areas.filter (fun a => a.id != id))).map (fun a => a.id)) :=
    (hSperm.map (fun a => a.id)).symm
  exact isOrderPerm_reorderAreas _ _ (hpermF.nodup_iff.mp hFids) hpermF

def areaA : Area := { id := "A", name := "Shelf", icon := "box", color := "slate", order := 0 }

def areaB : Area := { id := "B", name := "Bin", icon := "box", color := "slate", order := 1 }

def storeC : Store := { items := [], areas := [areaA, areaB] }

/-- C8 counterexample: from a two-area store with orders 0,1 (a
permutation of 0..1), the reorder endpoint called with a partial id
sequence (only the second area) leaves a stale order behind: both rows
end at order 0, which is not a permutation of 0..1.  So not every
operation preserves the order invariant. -/
theorem C8_counterexample :
    IsOrderPerm storeC.areas ∧ ¬ IsOrderPerm (reorderBatch storeC ["B"]).1.areas := by
  decide

/-- C8 (amended): on a store with distinct area ids whose orders are a
permutation of `0..count-1`, the invariant is preserved by createArea,
deleteArea, reorderAreas *when the id sequence enumerates exactly the
existing area ids*, updateArea *when no order value is supplied*, and
seeding.  (A partial or alien reorder sequence, or an updateArea call
that sets `order` directly, can break it — see the counterexample.) -/
theorem C8_order_invariant (s : Store)
    (hids : (s.areas.map (fun a => a.id)).Nodup) (hperm : IsOrderPerm s.areas) :
    (∀ newId nm icon color, IsOrderPerm (createArea s newId nm icon color).1.areas) ∧
    (∀ id, IsOrderPerm (deleteArea s id).1.areas) ∧
    (∀ ids, (s.areas.map (fun a => a.id)).Perm ids →
      IsOrderPerm (reorderBatch s ids).1.areas) ∧
    (∀ id nm icon color, IsOrderPerm (updateArea s id nm icon color none).1.areas) ∧
    IsOrderPerm (seedIfEmpty s).areas := by
  refine ⟨?_, ?_, ?_, ?_, ?_⟩
  · intro newId nm icon color
    by_cases hnm : strTrim nm = ""
    · simp only [createArea, if_pos hnm]
      exact hperm
    · by_cases hE : s.areas = []
      · simp only [createArea, if_neg hnm, hE]
        rw [isOrderPerm_def, ordersOf_def]
        simp only [List.nil_append, List.map_cons, List.map_nil, List.length_cons,
          List.length_nil]
        decide
      · have hmax := max_orders s hperm hE
        simp only [createArea, if_neg hnm, hmax]
        rw [isOrderPerm_def, ordersOf_def, List.map_append, List.length_append]
        simp only [List.map_cons, List.map_nil, List.length_cons, List.length_nil]
        have h1 : ((s.areas.length : Int) - 1 + 1) = (s.areas.length : Int) := by ring
        rw [h1, List.range_succ, List.map_append]
        have hp := (isOrderPerm_def s.areas).mp hperm
        rw [ordersOf_def] at hp
        have h2 : (List.map Int.ofNat [s.areas.length]) = [(s.areas.length : Int)] := by
          simp
        rw [h2]
        exact hp.append_right _
  · intro id
    cases hf : s.areas.find? (fun a => a.id == id) with
    | none =>
      simp only [deleteArea, hf]
      exact hperm
    | some a0 =>
      exact deleteArea_isOrderPerm s id a0 hids hf
  · intro ids hp
    have hnd : ids.Nodup := (List.Perm.nodup_iff hp).mp hids
    show IsOrderPerm (reorderAreas s.areas ids)
    exact isOrderPerm_reorderAreas s.areas ids hnd hp
  · intro id nm icon color
    cases hf : s.areas.find? (fun a => a.id == id) with
    | none =>
      simp only [updateArea, hf]
      exact hperm
    | some existing =>
      have hexid : existing.id = id := by simpa using List.find?_some hf
      have hexmem : existing ∈ s.areas := List.mem_of_find?_eq_some hf
      simp only [updateArea, hf]
      rw [isOrderPerm_def, ordersOf_def]
      rw [List.map_map, List.length_map]
      have hord : s.areas.map ((fun a => a.order) ∘ (fun a =>
          if a.id = id then
            { id := id,
              name := match nm with
                | some n => if strTrim n = "" then existing.name else strTrim n
                | none => existing.name,
              icon := match icon with
                | some i => if i = "" then existing.icon else i
                | none => existing.icon,
              color := match color with
                | some c => if c = "" then existing.color else c
                | none => existing.color,
              order := existing.order }
          else a)) = s.areas.map (fun a => a.order) := by
        refine List.map_congr_left (fun a ha => ?_)
        simp only [Function.comp_apply]
        by_cases h : a.id = id
        · have hae : a = existing :=
            List.inj_on_of_nodup_map hids ha hexmem (by rw [h, hexid])
          rw [if_pos h, hae]
        · rw [if_neg h]
      rw [hord]
      have hp := (isOrderPerm_def s.areas).mp hperm
      rw [ordersOf_def] at hp
      exact hp
  · by_cases hE : s.areas.isEmpty
    · simp only [seedIfEmpty, if_pos hE]
      decide
    · simp only [seedIfEmpty, if_neg hE]
      exact hperm

/-- Witness for the amended C8 on the concrete two-area store: create,
delete, full-permutation reorder, order-free update and seeding all keep
the orders a permutation of `0..count-1`. -/
theorem C8_witness :
    IsOrderPerm (createArea storeC "X" "New" "box" "slate").1.areas ∧
    IsOrderPerm (deleteArea storeC "A").1.areas ∧
    IsOrderPerm (reorderBatch storeC ["B", "A"]).1.areas ∧
    IsOrderPerm (updateArea storeC "A" (some "Renamed") none none none).1.areas ∧
    IsOrderPerm (seedIfEmpty storeC).areas := by
  have h := C8_order_invariant storeC (by decide) (by decide)
  exact ⟨h.1 "X" "New" "box" "slate", h.2.1 "A", h.2.2.1 ["B", "A"] (by decide),
    h.2.2.2.1 "A" (some "Renamed") none none, h.2.2.2.2⟩

end Pantry
